import Mathlib

/-!
Verification development for the `kconfparse` crate: a pest-based parser for
the source-inclusion subset of the Kconfig language.

The embedding models:
* pest parse-tree pairs (`Rule`, `Span`, `Pair`) and located errors (`PestErr`);
* the AST layer (`SourceType`, `SourceDirective`, `TopLevel`, `KConfigFile`)
  and its `TryFrom` conversions from `src/crates/kconfparse/src/lib.rs`;
* the string-literal decoder `parse_string_literal`;
* the grammar `kconfig.pest` (not shipped with the crate sources), modelled
  from the specification.

Rust functions that can panic (`unwrap`, `assert!`, out-of-bounds slicing)
are embedded in the `PResult` type, whose `panic` constructor marks
divergence.  Byte-indexed slicing of UTF-8 strings is modelled at the
character level, with explicit checks that the byte indices used by the
source fall on character boundaries (`byteStrip`).
-/

namespace KConf

/-- A byte span in the original input (models `pest::Span` positions). -/
structure Span where
  startPos : Nat
  stopPos : Nat
deriving DecidableEq, Repr

/-- A located error (models `pest::error::Error` with a `CustomError` message). -/
structure PestErr where
  message : String
  span : Span
deriving DecidableEq, Repr

/-- Grammar rules of `kconfig.pest` that appear in the conversion layer. -/
inductive Rule where
  | file
  | top_level
  | source_directive
  | source_token
  | K_SOURCE
  | K_RSOURCE
  | K_OSOURCE
  | K_ORSOURCE
  | string
deriving DecidableEq, Repr

/-- A pest parse-tree node: rule tag, span, matched text, inner pairs. -/
inductive Pair where
  | mk : Rule → Span → List Char → List Pair → Pair

/-- The rule tag of a pair (models `Pair::as_rule`). -/
def Pair.rule : Pair → Rule
  | .mk r _ _ _ => r

/-- The span of a pair (models `Pair::as_span`). -/
def Pair.span : Pair → Span
  | .mk _ sp _ _ => sp

/-- The matched text of a pair (models `Pair::as_str`). -/
def Pair.text : Pair → List Char
  | .mk _ _ tx _ => tx

/-- The inner pairs of a pair (models `Pair::into_inner`). -/
def Pair.innerPairs : Pair → List Pair
  | .mk _ _ _ i => i

/-- Result of a Rust computation that may return `Ok`, return `Err`, or
panic (`unwrap` on `None`/`Err`, failed `assert!`, invalid slice index). -/
inductive PResult (α : Type) where
  | ok : α → PResult α
  | err : PestErr → PResult α
  | panic : PResult α
deriving DecidableEq, Repr

/-- Models `std::borrow::Cow<str>`: a borrowed (zero-copy) view of the
input, or an owned (freshly allocated) string. -/
inductive Cow where
  | borrowed : List Char → Cow
  | owned : List Char → Cow
deriving DecidableEq, Repr

/-- The type of a source directive (`SourceType` in lib.rs). -/
inductive SourceType where
  | Source
  | RSource
  | OSource
  | ORSource
deriving DecidableEq, Repr

/-- `SourceType::is_optional`: `matches!(self, Self::OSource | Self::ORSource)`. -/
def SourceType.is_optional : SourceType → Bool
  | .OSource => true
  | .ORSource => true
  | _ => false

/-- `SourceType::is_relative`: `matches!(self, Self::RSource | Self::ORSource)`. -/
def SourceType.is_relative : SourceType → Bool
  | .RSource => true
  | .ORSource => true
  | _ => false

/-- `SourceDirective` in lib.rs: a source type and a decoded filename glob. -/
structure SourceDirective where
  source_type : SourceType
  filename_glob : Cow
deriving DecidableEq, Repr

/-- `TopLevel` in lib.rs: sum type with (currently) one variant. -/
inductive TopLevel where
  | SourceDirective : KConf.SourceDirective → TopLevel
deriving DecidableEq, Repr

/-- `KConfigFile` in lib.rs: ordered sequence of top-level blocks. -/
structure KConfigFile where
  blocks : List TopLevel
deriving DecidableEq, Repr

/-! ### The string-literal decoder (`parse_string_literal`, lib.rs lines 165-247) -/

/-- The open-brace character, written via its code point. -/
def lbraceChar : Char := Char.ofNat 123

/-- The close-brace character, written via its code point. -/
def rbraceChar : Char := Char.ofNat 125

/-- Value of one hexadecimal digit, as accepted by `from_str_radix(_, 16)`. -/
def hexDigitVal (c : Char) : Option Nat :=
  if '0' ≤ c ∧ c ≤ '9' then some (c.toNat - '0'.toNat)
  else if 'a' ≤ c ∧ c ≤ 'f' then some (c.toNat - 'a'.toNat + 10)
  else if 'A' ≤ c ∧ c ≤ 'F' then some (c.toNat - 'A'.toNat + 10)
  else none

/-- Digit-accumulation loop of `from_str_radix` with overflow checking:
each step fails on a non-hex digit or when the value exceeds `maxVal`. -/
def parseHexDigits (maxVal : Nat) (acc : Nat) : List Char → Option Nat
  | [] => some acc
  | c :: rest =>
    match hexDigitVal c with
    | none => none
    | some d =>
      if acc * 16 + d > maxVal then none
      else parseHexDigits maxVal (acc * 16 + d) rest

/-- Models `uN::from_str_radix(s, 16)` for an unsigned type with maximum
value `maxVal`: an optional leading `+` sign, then one or more hex digits,
failing on empty digits, an invalid digit, or overflow. -/
def fromStrRadix16 (s : List Char) (maxVal : Nat) : Option Nat :=
  let digits := match s with
    | '+' :: rest => rest
    | other => other
  match digits with
  | [] => none
  | _ => parseHexDigits maxVal 0 digits

/-- `char::from_u32` succeeds exactly on Unicode scalar values. -/
def isScalarValue (n : Nat) : Bool :=
  n < 0xD800 || (0xE000 ≤ n && n < 0x110000)

/-- UTF-8 byte length of a character sequence (models `str::len`). -/
def utf8Len (l : List Char) : Nat :=
  l.foldl (fun a c => a + c.utf8Size) 0

/-- Models the byte-indexed slice `&s[1..s.len() - 1]` applied to the
already-unquoted interior at lib.rs line 178.  Returns `none` when Rust
would panic: the end index precedes the start index (byte length < 2) or
either index is not a character boundary (the first or last character is
multi-byte).  Otherwise the slice is exactly the interior minus its first
and last character. -/
def byteStrip : List Char → Option (List Char)
  | [] => none
  | c :: rest =>
    if 2 ≤ utf8Len (c :: rest) ∧ c.utf8Size = 1 ∧
        ((c :: rest).getLast (by simp)).utf8Size = 1 then
      some rest.dropLast
    else none

mutual

/-- The character-scanning loop of `parse_string_literal` (lib.rs lines
179-246).  The loop has no normal exit: every iteration either pushes a
character and continues, returns a located error, or panics
(`chars.next().unwrap()` on an exhausted iterator, or the failed
`assert_eq!` for a `\u` escape not followed by an open brace).  The inner
loop that collects the hex digits of a `\u` escape (lines 212-218) is the
mutually recursive `collectU`, written in continuation style. -/
def decodeLoop (sp : Span) (acc : List Char) (l : List Char) : PResult Cow :=
  match l with
  | [] => .panic
  | c :: rest =>
    if c ≠ '\\' then decodeLoop sp (acc ++ [c]) rest
    else
      match rest with
      | [] => .panic
      | e :: rest2 =>
        if e = 'n' then decodeLoop sp (acc ++ ['\n']) rest2
        else if e = 'r' then decodeLoop sp (acc ++ ['\r']) rest2
        else if e = 't' then decodeLoop sp (acc ++ ['\t']) rest2
        else if e = '\\' then decodeLoop sp (acc ++ ['\\']) rest2
        else if e = '0' then decodeLoop sp (acc ++ [Char.ofNat 0]) rest2
        else if e = Char.ofNat 39 then decodeLoop sp (acc ++ [Char.ofNat 39]) rest2
        else if e = '"' then decodeLoop sp (acc ++ ['"']) rest2
        else if e = 'x' then
          match rest2 with
          | [] => .panic
          | [_] => .panic
          | h1 :: h2 :: rest3 =>
            match fromStrRadix16 [h1, h2] 255 with
            | some b => decodeLoop sp (acc ++ [Char.ofNat b]) rest3
            | none =>
              .err ⟨"invalid hex escape: \\x" ++ String.mk [h1, h2], sp⟩
        else if e = 'u' then
          match rest2 with
          | [] => .panic
          | b :: rest3 =>
            if b = lbraceChar then collectU sp acc [] rest3
            else .panic
        else .err ⟨"invalid escape: \\" ++ String.mk [e], sp⟩
termination_by l.length

/-- Inner loop of the `\u` escape (lib.rs lines 211-235): collect the hex
digits until the closing brace (panicking on an exhausted iterator), then
decode them with `u32::from_str_radix` and `char::from_u32` and resume the
outer scan. -/
def collectU (sp : Span) (acc : List Char) (hex : List Char) (l : List Char) : PResult Cow :=
  match l with
  | [] => .panic
  | c :: rest =>
    if c = rbraceChar then
      match fromStrRadix16 hex 4294967295 with
      | none => .err ⟨"invalid unicode escape: \\u\x7b" ++ String.mk hex ++ "\x7d", sp⟩
      | some n =>
        if isScalarValue n then decodeLoop sp (acc ++ [Char.ofNat n]) rest
        else .err ⟨"invalid unicode codepoint: \\u\x7b" ++ String.mk hex ++ "\x7d", sp⟩
    else collectU sp acc (hex ++ [c]) rest
termination_by l.length

end

/-! Unfolding lemmas for the scan loop, used to evaluate concrete inputs
and to reason case by case. -/

theorem decodeLoop_nil (sp : Span) (acc : List Char) : decodeLoop sp acc [] = .panic := by
  rw [decodeLoop.eq_def]

theorem collectU_nil (sp : Span) (acc hex : List Char) : collectU sp acc hex [] = .panic := by
  rw [collectU.eq_def]

theorem decodeLoop_plain (sp : Span) (acc : List Char) (c : Char) (rest : List Char)
    (h : c ≠ '\\') : decodeLoop sp acc (c :: rest) = decodeLoop sp (acc ++ [c]) rest := by
  rw [decodeLoop.eq_def]
  simp only [if_pos h]

theorem decodeLoop_bad_escape (sp : Span) (acc : List Char) (e : Char) (rest : List Char)
    (hn : e ≠ 'n') (hr : e ≠ 'r') (ht : e ≠ 't') (hb : e ≠ '\\') (h0 : e ≠ '0')
    (ha : e ≠ Char.ofNat 39) (hq : e ≠ '"') (hx : e ≠ 'x') (hu : e ≠ 'u') :
    decodeLoop sp acc ('\\' :: e :: rest) =
      .err ⟨"invalid escape: \\" ++ String.mk [e], sp⟩ := by
  rw [decodeLoop.eq_def]
  simp [hn, hr, ht, hb, h0, ha, hq, hx, hu]

/-- The error messages the decoder can produce: each names the offending
escape sequence. -/
def namesBadEscape (m : String) : Prop :=
  ∃ s : String,
    m = "invalid escape: \\" ++ s ∨
    m = "invalid hex escape: \\x" ++ s ∨
    m = "invalid unicode escape: \\u\x7b" ++ s ++ "\x7d" ∨
    m = "invalid unicode codepoint: \\u\x7b" ++ s ++ "\x7d"

/-- Shape of every possible outcome of the scan loop: it diverges, or it
returns a located error whose span is the one it was given and whose
message names the bad escape.  It never returns `ok`. -/
def errShape (sp : Span) (r : PResult Cow) : Prop :=
  r = .panic ∨ ∃ e, r = .err e ∧ e.span = sp ∧ namesBadEscape e.message

/-- Main loop invariant, proved for `decodeLoop` and `collectU` together by
strong induction on the input length: the scan loop never returns a
successful value, and every error it returns carries the given span and a
message naming the bad escape. -/
theorem decode_spec (sp : Span) (n : Nat) :
    (∀ acc l, l.length ≤ n → errShape sp (decodeLoop sp acc l)) ∧
    (∀ acc hex l, l.length ≤ n → errShape sp (collectU sp acc hex l)) := by
  induction n with
  | zero =>
    constructor
    · intro acc l hl
      have hnil : l = [] := List.length_eq_zero.mp (Nat.le_zero.mp hl)
      subst hnil
      exact Or.inl (decodeLoop_nil sp acc)
    · intro acc hex l hl
      have hnil : l = [] := List.length_eq_zero.mp (Nat.le_zero.mp hl)
      subst hnil
      exact Or.inl (collectU_nil sp acc hex)
  | succ n ih =>
    obtain ⟨ihD, ihC⟩ := ih
    constructor
    · intro acc l hl
      match l with
      | [] => exact Or.inl (decodeLoop_nil sp acc)
      | c :: rest =>
        simp only [List.length_cons, Nat.succ_le_succ_iff] at hl
        by_cases hc : c = '\\'
        · subst hc
          match rest with
          | [] =>
            rw [decodeLoop.eq_def]
            exact Or.inl rfl
          | e :: rest2 =>
            simp only [List.length_cons] at hl
            rw [decodeLoop.eq_def]
            simp only [ne_eq, not_true_eq_false, if_false]
            by_cases hn : e = 'n'
            · simp only [if_pos hn]; exact ihD _ _ (by omega)
            by_cases hr : e = 'r'
            · simp only [if_neg hn, if_pos hr]; exact ihD _ _ (by omega)
            by_cases ht : e = 't'
            · simp only [if_neg hn, if_neg hr, if_pos ht]; exact ihD _ _ (by omega)
            by_cases hbs : e = '\\'
            · simp only [if_neg hn, if_neg hr, if_neg ht, if_pos hbs]
              exact ihD _ _ (by omega)
            by_cases h0 : e = '0'
            · simp only [if_neg hn, if_neg hr, if_neg ht, if_neg hbs, if_pos h0]
              exact ihD _ _ (by omega)
            by_cases hap : e = Char.ofNat 39
            · simp only [if_neg hn, if_neg hr, if_neg ht, if_neg hbs, if_neg h0, if_pos hap]
              exact ihD _ _ (by omega)
            by_cases hqu : e = '"'
            · simp only [if_neg hn, if_neg hr, if_neg ht, if_neg hbs, if_neg h0, if_neg hap,
                if_pos hqu]
              exact ihD _ _ (by omega)
            by_cases hx : e = 'x'
            · simp only [if_neg hn, if_neg hr, if_neg ht, if_neg hbs, if_neg h0, if_neg hap,
                if_neg hqu, if_pos hx]
              match rest2 with
              | [] => exact Or.inl rfl
              | [_] => exact Or.inl rfl
              | h1 :: h2 :: rest3 =>
                simp only [List.length_cons] at hl
                cases hfr : fromStrRadix16 [h1, h2] 255 with
                | some b => simp only [hfr]; exact ihD _ _ (by omega)
                | none =>
                  simp only [hfr]
                  exact Or.inr ⟨_, rfl, rfl, ⟨String.mk [h1, h2], Or.inr (Or.inl rfl)⟩⟩
            by_cases hu : e = 'u'
            · simp only [if_neg hn, if_neg hr, if_neg ht, if_neg hbs, if_neg h0, if_neg hap,
                if_neg hqu, if_neg hx, if_pos hu]
              match rest2 with
              | [] => exact Or.inl rfl
              | b :: rest3 =>
                simp only [List.length_cons] at hl
                by_cases hbr : b = lbraceChar
                · simp only [if_pos hbr]
                  exact ihC _ _ _ (by omega)
                · simp only [if_neg hbr]
                  exact Or.inl rfl
            · simp only [if_neg hn, if_neg hr, if_neg ht, if_neg hbs, if_neg h0, if_neg hap,
                if_neg hqu, if_neg hx, if_neg hu]
              exact Or.inr ⟨_, rfl, rfl, ⟨String.mk [e], Or.inl rfl⟩⟩
        · rw [decodeLoop_plain sp acc c rest hc]
          exact ihD _ _ (by omega)
    · intro acc hex l hl
      match l with
      | [] => exact Or.inl (collectU_nil sp acc hex)
      | c :: rest =>
        simp only [List.length_cons, Nat.succ_le_succ_iff] at hl
        rw [collectU.eq_def]
        by_cases hbr : c = rbraceChar
        · simp only [if_pos hbr]
          cases hfr : fromStrRadix16 hex 4294967295 with
          | none =>
            exact Or.inr ⟨_, rfl, rfl, ⟨String.mk hex, Or.inr (Or.inr (Or.inl rfl))⟩⟩
          | some m =>
            by_cases hsc : isScalarValue m
            · simp only [if_pos hsc]
              exact ihD _ _ (by omega)
            · simp only [if_neg hsc]
              exact Or.inr ⟨_, rfl, rfl, ⟨String.mk hex, Or.inr (Or.inr (Or.inr rfl))⟩⟩
        · simp only [if_neg hbr]
          exact ihC _ _ _ (by omega)

/-- `parse_string_literal` (lib.rs lines 165-247).  Asserts the node is a
`string` rule spanning a quoted literal (panic on violation), strips the
quotes, takes the zero-copy fast path when no backslash is present, and
otherwise strips the first and last character of the interior a second
time (the byte slice at line 178) before running the scan loop. -/
def parse_string_literal (p : Pair) : PResult Cow :=
  match p with
  | .mk r sp tx _ =>
    if r ≠ Rule.string then .panic
    else if tx.length < 2 then .panic
    else if tx.head? ≠ some '"' then .panic
    else if tx.getLast? ≠ some '"' then .panic
    else
      let interior := (tx.drop 1).dropLast
      if interior.contains '\\' = false then .ok (.borrowed interior)
      else
        match byteStrip interior with
        | none => .panic
        | some inner2 => decodeLoop sp [] inner2

/-! ### The AST conversion layer (`TryFrom` impls, lib.rs lines 48-163) -/

/-- `SourceType::try_from` (lib.rs lines 117-136): dispatch on the keyword
rule; a `source_token` node recurses into its first inner pair
(`into_inner().next().unwrap()`, panic when absent). -/
def SourceType.tryFrom : Pair → PResult SourceType
  | .mk r sp _ inner =>
    match r with
    | Rule.K_SOURCE => .ok .Source
    | Rule.K_RSOURCE => .ok .RSource
    | Rule.K_OSOURCE => .ok .OSource
    | Rule.K_ORSOURCE => .ok .ORSource
    | Rule.source_token =>
      match inner with
      | [] => .panic
      | q :: _ => SourceType.tryFrom q
    | _ => .err ⟨"not a source token", sp⟩

/-- `SourceDirective::try_from` (lib.rs lines 149-163): after the
`check_rule!` guard, consume the source-token pair (`next().unwrap()`,
then `?`), then the string pair (`next().unwrap()`, then `?` on the
decoder). -/
def SourceDirective.tryFrom (p : Pair) : PResult SourceDirective :=
  match p with
  | .mk r sp _ inner =>
    if r ≠ Rule.source_directive then .err ⟨"not a source_directive", sp⟩
    else
      match inner with
      | [] => .panic
      | p1 :: rest1 =>
        match SourceType.tryFrom p1 with
        | .err e => .err e
        | .panic => .panic
        | .ok st =>
          match rest1 with
          | [] => .panic
          | p2 :: _ =>
            match parse_string_literal p2 with
            | .ok fg => .ok ⟨st, fg⟩
            | .err e => .err e
            | .panic => .panic

/-- `TopLevel::try_from` (lib.rs lines 72-87): after the `check_rule!`
guard, take the unique inner pair (`next().unwrap()` then
`assert!(next().is_none())`), dispatch on its rule; a decode/conversion
error from `SourceDirective::try_from` is `.unwrap()`ed (lib.rs line 83),
so it panics instead of propagating; any other rule is `unreachable!`. -/
def TopLevel.tryFrom (p : Pair) : PResult TopLevel :=
  match p with
  | .mk r sp _ inner =>
    if r ≠ Rule.top_level then .err ⟨"not a top_level", sp⟩
    else
      match inner with
      | [q] =>
        match q.rule with
        | Rule.source_directive =>
          match SourceDirective.tryFrom q with
          | .ok d => .ok (.SourceDirective d)
          | .err _ => .panic
          | .panic => .panic
        | _ => .panic
      | _ => .panic

/-- The conversion loop of `KConfigFile::try_from` (lib.rs lines 54-57):
convert each inner pair in order, short-circuiting on the first error. -/
def convertBlocks : List Pair → PResult (List TopLevel)
  | [] => .ok []
  | q :: rest =>
    match TopLevel.tryFrom q with
    | .err e => .err e
    | .panic => .panic
    | .ok t =>
      match convertBlocks rest with
      | .ok ts => .ok (t :: ts)
      | .err e => .err e
      | .panic => .panic

/-- `KConfigFile::try_from` (lib.rs lines 48-63): after the `check_rule!`
guard for `Rule::file`, convert every inner pair to a `TopLevel`. -/
def KConfigFile.tryFrom (p : Pair) : PResult KConfigFile :=
  match p with
  | .mk r sp _ inner =>
    if r ≠ Rule.file then .err ⟨"not a file", sp⟩
    else
      match convertBlocks inner with
      | .ok bs => .ok ⟨bs⟩
      | .err e => .err e
      | .panic => .panic

/-! ### The grammar engine

The crate's declarative grammar file `kconfig.pest` is not part of the
sources; the functions below are modelled from the specification of the
Grammar Engine (spec sections 2 and 4.1). -/

/-- Modelled from the spec: the whitespace accepted between directives and
tokens ("arbitrary whitespace/newlines/tabs"). -/
def isWsChar (c : Char) : Bool :=
  c = ' ' || c = '\t' || c = '\n' || c = '\r'

/-- Modelled from the spec: skip whitespace, tracking the absolute
position. -/
def skipWs : Nat → List Char → Nat × List Char
  | pos, [] => (pos, [])
  | pos, c :: rest =>
    if isWsChar c then skipWs (pos + 1) rest else (pos, c :: rest)

/-- Modelled from the spec: identifier characters that must not directly
follow a directive keyword. -/
def isIdentChar (c : Char) : Bool :=
  c.isAlphanum || c = '_'

/-- Strip a literal prefix from a character list, returning the remainder
on success. -/
def stripPrefixChars : List Char → List Char → Option (List Char)
  | [], l => some l
  | _ :: _, [] => none
  | p :: ps, c :: cs => if p = c then stripPrefixChars ps cs else none

/-- Modelled from the spec: match one of the four case-sensitive directive
keywords, returning its rule, its text, and the remaining input. -/
def matchKw (l : List Char) : Option (Rule × List Char × List Char) :=
  match stripPrefixChars ("orsource".data) l with
  | some rest => some (Rule.K_ORSOURCE, "orsource".data, rest)
  | none =>
    match stripPrefixChars ("osource".data) l with
    | some rest => some (Rule.K_OSOURCE, "osource".data, rest)
    | none =>
      match stripPrefixChars ("rsource".data) l with
      | some rest => some (Rule.K_RSOURCE, "rsource".data, rest)
      | none =>
        match stripPrefixChars ("source".data) l with
        | some rest => some (Rule.K_SOURCE, "source".data, rest)
        | none => none

/-- Modelled from the spec: scan the body of a double-quoted string
literal, after the opening quote.  Any character except an unescaped
double quote is accepted; a backslash escapes the following character; a
missing closing quote is a syntax error located at or after the opening
quote.  Returns the scanned text (up to and including the closing quote),
the position after it, and the remaining input. -/
def scanString (pos : Nat) : List Char → Except PestErr (List Char × Nat × List Char)
  | [] => .error ⟨"unterminated string literal", ⟨pos, pos⟩⟩
  | c :: rest =>
    if c = '"' then .ok ([c], pos + 1, rest)
    else if c = '\\' then
      match rest with
      | [] => .error ⟨"unterminated string literal", ⟨pos + 1, pos + 1⟩⟩
      | d :: rest2 =>
        match scanString (pos + 2) rest2 with
        | .ok (tx, p2, r2) => .ok (c :: d :: tx, p2, r2)
        | .error e => .error e
    else
      match scanString (pos + 1) rest with
      | .ok (tx, p2, r2) => .ok (c :: tx, p2, r2)
      | .error e => .error e

/-- Modelled from the spec: parse one directive after its keyword has been
matched, producing the `top_level` pair wrapping the `source_directive`
pair (whose inner pairs are the `source_token` wrapping the keyword rule,
and the `string` literal).  Only the `string` pair's text is consumed by
the conversion layer; composite pairs carry the concatenated token texts. -/
def parseOneDirective (pos1 : Nat) (kr : Rule) (ktext : List Char) (rest : List Char) :
    Except PestErr (Pair × Nat × List Char) :=
  let kend := pos1 + ktext.length
  let boundaryBad := match rest with
    | c :: _ => isIdentChar c
    | [] => false
  if boundaryBad then .error ⟨"keyword fused with identifier characters", ⟨pos1, kend⟩⟩
  else
    let s2 := skipWs kend rest
    match s2.2 with
    | c :: tail =>
      if c = '"' then
        match scanString (s2.1 + 1) tail with
        | .error e => .error e
        | .ok (body, pos3, rest3) =>
          let ksp : Span := ⟨pos1, kend⟩
          let kPair := Pair.mk kr ksp ktext []
          let tokPair := Pair.mk Rule.source_token ksp ktext [kPair]
          let strText := '"' :: body
          let strPair := Pair.mk Rule.string ⟨s2.1, pos3⟩ strText []
          let dirPair := Pair.mk Rule.source_directive ⟨pos1, pos3⟩ (ktext ++ strText)
            [tokPair, strPair]
          let topPair := Pair.mk Rule.top_level ⟨pos1, pos3⟩ (ktext ++ strText) [dirPair]
          .ok (topPair, pos3, rest3)
      else .error ⟨"expected a quoted string literal", ⟨s2.1, s2.1⟩⟩
    | [] => .error ⟨"expected a quoted string literal", ⟨s2.1, s2.1⟩⟩

/-- Modelled from the spec: the `file` production — zero or more
directives separated by whitespace, to the end of input.  The fuel
argument bounds the recursion; `input.length + 1` always suffices because
every directive consumes at least one character. -/
def parseDirectives : Nat → Nat → List Char → Except PestErr (List Pair)
  | 0, pos, _ => .error ⟨"internal: fuel exhausted", ⟨pos, pos⟩⟩
  | fuel + 1, pos, l =>
    let s := skipWs pos l
    match s.2 with
    | [] => .ok []
    | l1 =>
      match matchKw l1 with
      | none => .error ⟨"expected a source directive keyword", ⟨s.1, s.1⟩⟩
      | some (kr, ktext, rest) =>
        match parseOneDirective s.1 kr ktext rest with
        | .error e => .error e
        | .ok (tp, pos3, rest3) =>
          match parseDirectives fuel pos3 rest3 with
          | .error e => .error e
          | .ok tps => .ok (tp :: tps)

/-- Modelled from the spec: the Grammar Engine's entry point — parse a
whole buffer with the file-level rule, producing the `file` pair or a
located syntax error. -/
def grammarParse (input : List Char) : Except PestErr Pair :=
  match parseDirectives (input.length + 1) 0 input with
  | .error e => .error e
  | .ok tps => .ok (Pair.mk Rule.file ⟨0, input.length⟩ input tps)

/-- The full pipeline (spec section 2): raw text through the grammar
engine, then through the AST builder (`KConfigFile::try_from`), with the
string-literal decoder invoked from `SourceDirective::try_from`. -/
def parseKConfig (input : List Char) : PResult KConfigFile :=
  match grammarParse input with
  | .error e => .err e
  | .ok p => KConfigFile.tryFrom p

/-! ### Auxiliary lemmas shared by the claim theorems -/

/-- Skipping whitespace over an all-whitespace buffer consumes it all. -/
theorem skipWs_all_ws : ∀ (l : List Char) (pos : Nat), (∀ c ∈ l, isWsChar c = true) →
    skipWs pos l = (pos + l.length, []) := by
  intro l
  induction l with
  | nil => intro pos _; simp [skipWs]
  | cons c rest ih =>
    intro pos h
    have hc : isWsChar c = true := h c (by simp)
    simp only [skipWs, if_pos hc]
    rw [ih (pos + 1) (fun d hd => h d (by simp [hd]))]
    have harith : pos + 1 + rest.length = pos + (rest.length + 1) := by omega
    rw [harith]
    simp [List.length_cons]

end KConf

namespace KConf

/-! ### The claims -/

/-- C1: the claim that parsing any malformed input returns an error value
and never panics is violated by the code: for the input `source "a\qb"`
(an unrecognized escape `\q` inside the string literal), the grammar
accepts the directive, the string-literal decoder produces a located
decode error, and `TopLevel::try_from` (lib.rs line 83) `.unwrap()`s that
error, so the pipeline panics instead of returning an error value. -/
theorem claim_C1_malformed_input_panics :
    parseKConfig ("source \"a\\qb\"".data) = .panic := by
  have hpsl : parse_string_literal (Pair.mk Rule.string ⟨7, 13⟩ ("\"a\\qb\"".data) []) =
      .err ⟨"invalid escape: \\q", ⟨7, 13⟩⟩ := by
    have h := decodeLoop_bad_escape ⟨7, 13⟩ [] 'q' [] (by decide) (by decide) (by decide)
      (by decide) (by decide) (by decide) (by decide) (by decide) (by decide)
    have hmsg : ("invalid escape: \\" ++ String.mk ['q'] : String) = "invalid escape: \\q" := by
      decide
    rw [hmsg] at h
    exact h
  have h2 : KConfigFile.tryFrom (Pair.mk Rule.file ⟨0, 13⟩ ("source \"a\\qb\"".data)
      [Pair.mk Rule.top_level ⟨0, 13⟩ ("source".data ++ "\"a\\qb\"".data)
        [Pair.mk Rule.source_directive ⟨0, 13⟩ ("source".data ++ "\"a\\qb\"".data)
          [Pair.mk Rule.source_token ⟨0, 6⟩ ("source".data)
            [Pair.mk Rule.K_SOURCE ⟨0, 6⟩ ("source".data) []],
           Pair.mk Rule.string ⟨7, 13⟩ ("\"a\\qb\"".data) []]]]) = .panic := by
    simp only [KConfigFile.tryFrom, convertBlocks, TopLevel.tryFrom, Pair.rule,
      SourceDirective.tryFrom, SourceType.tryFrom, hpsl]
    simp
  exact h2

/-- C2: the claim that `"\n"` decodes to a newline, `"\x41"` to `"A"` and
`"\u{1F600}"` to U+1F600 is violated by the code: the decoder strips the
first and last character of the already-unquoted interior a second time
(lib.rs line 178) and its scan loop only exits through an error or a
panic, so decoding each of these literals panics on an exhausted character
iterator instead of succeeding. -/
theorem claim_C2_escape_examples_panic :
    parse_string_literal (Pair.mk Rule.string ⟨0, 4⟩ ("\"\\n\"".data) []) = .panic ∧
    parse_string_literal (Pair.mk Rule.string ⟨0, 6⟩ ("\"\\x41\"".data) []) = .panic ∧
    parse_string_literal (Pair.mk Rule.string ⟨0, 11⟩ ("\"\\u\x7b1F600\x7d\"".data) [])
      = .panic := by
  refine ⟨decodeLoop_nil ⟨0, 4⟩ [], ?_, ?_⟩
  · show decodeLoop ⟨0, 6⟩ [] ['x', '4'] = .panic
    simp [decodeLoop_plain, decodeLoop_nil]
  · show decodeLoop ⟨0, 11⟩ [] ['u', Char.ofNat 123, '1', 'F', '6', '0', '0'] = .panic
    simp [decodeLoop_plain, decodeLoop_nil]

/-- C3: the fast path of the decoder — a quoted literal whose interior
contains no backslash decodes to exactly its interior, returned as a
zero-copy borrowed view (`Cow::Borrowed`), the empty literal `""`
included. -/
theorem claim_C3_fast_path_zero_copy (r : Rule) (sp : Span) (tx : List Char) (i : List Pair)
    (hr : r = Rule.string) (hlen : 2 ≤ tx.length) (hhead : tx.head? = some '"')
    (hlast : tx.getLast? = some '"')
    (hnb : ((tx.drop 1).dropLast).contains '\\' = false) :
    parse_string_literal (Pair.mk r sp tx i) = .ok (.borrowed ((tx.drop 1).dropLast)) := by
  subst hr
  simp only [parse_string_literal]
  rw [if_neg (by simp), if_neg (by omega), if_neg (by simp [hhead]), if_neg (by simp [hlast]),
    if_pos hnb]

/-- Witness for C3 at the empty quoted literal `""`. -/
theorem claim_C3_fast_path_zero_copy_witness :
    parse_string_literal (Pair.mk Rule.string ⟨0, 2⟩ ['"', '"'] []) = .ok (.borrowed []) :=
  claim_C3_fast_path_zero_copy Rule.string ⟨0, 2⟩ ['"', '"'] [] rfl (by decide) (by decide)
    (by decide) (by decide)

/-- C4: the claim that decoding the literal `"\q"` produces a located
decode error is violated by the code: the second interior strip (lib.rs
line 178) removes the backslash and the `q`, leaving the scan loop to
panic on an exhausted character iterator (`chars.next().unwrap()`). -/
theorem claim_C4_unrecognized_escape_panics :
    parse_string_literal (Pair.mk Rule.string ⟨0, 4⟩ ("\"\\q\"".data) []) = .panic :=
  decodeLoop_nil ⟨0, 4⟩ []

/-- C5: the claim that a literal whose interior ends in a dangling
backslash surfaces an error value is violated by the code: for `"ab\"`
(interior `ab\`) the second interior strip removes the `a` and the
backslash, and the scan loop panics on an exhausted character iterator
instead of returning an error. -/
theorem claim_C5_dangling_backslash_panics :
    parse_string_literal (Pair.mk Rule.string ⟨0, 5⟩ ("\"ab\\\"".data) []) = .panic := by
  show decodeLoop ⟨0, 5⟩ [] ['b'] = .panic
  simp [decodeLoop_plain, decodeLoop_nil]

/-- C6: every decode error returned by the string-literal decoder carries
the span of the entire string literal node (the span the decoder was
given) and a message identifying the bad escape sequence. -/
theorem claim_C6_decode_errors_located (p : Pair) (e : PestErr)
    (h : parse_string_literal p = .err e) :
    e.span = p.span ∧ namesBadEscape e.message := by
  obtain ⟨r, sp, tx, i⟩ := p
  simp only [parse_string_literal] at h
  by_cases h1 : r ≠ Rule.string
  · rw [if_pos h1] at h; exact absurd h (by simp)
  rw [if_neg h1] at h
  by_cases h2 : tx.length < 2
  · rw [if_pos h2] at h; exact absurd h (by simp)
  rw [if_neg h2] at h
  by_cases h3 : tx.head? ≠ some '"'
  · rw [if_pos h3] at h; exact absurd h (by simp)
  rw [if_neg h3] at h
  by_cases h4 : tx.getLast? ≠ some '"'
  · rw [if_pos h4] at h; exact absurd h (by simp)
  rw [if_neg h4] at h
  by_cases h5 : ((tx.drop 1).dropLast).contains '\\' = false
  · rw [if_pos h5] at h; exact absurd h (by simp)
  rw [if_neg h5] at h
  cases hb : byteStrip ((tx.drop 1).dropLast) with
  | none =>
    simp only [hb] at h
    exact absurd h (by simp)
  | some inner2 =>
    simp only [hb] at h
    have hs := (decode_spec sp inner2.length).1 [] inner2 (le_refl _)
    rcases hs with hs | ⟨e2, he2, hsp, hmsg⟩
    · rw [hs] at h; exact absurd h (by simp)
    · rw [he2] at h
      cases h
      exact ⟨hsp, hmsg⟩

/-- Witness for C6 at the literal `"a\qb"`, whose decode error is the
unrecognized escape `\q`, located at the span of the whole literal. -/
theorem claim_C6_decode_errors_located_witness :
    (⟨"invalid escape: \\q", ⟨5, 11⟩⟩ : PestErr).span =
      (Pair.mk Rule.string ⟨5, 11⟩ ("\"a\\qb\"".data) []).span ∧
    namesBadEscape "invalid escape: \\q" :=
  claim_C6_decode_errors_located (Pair.mk Rule.string ⟨5, 11⟩ ("\"a\\qb\"".data) [])
    ⟨"invalid escape: \\q", ⟨5, 11⟩⟩
    (by
      have h := decodeLoop_bad_escape ⟨5, 11⟩ [] 'q' [] (by decide) (by decide) (by decide)
        (by decide) (by decide) (by decide) (by decide) (by decide) (by decide)
      have hmsg : ("invalid escape: \\" ++ String.mk ['q'] : String) = "invalid escape: \\q" := by
        decide
      rw [hmsg] at h
      exact h)

/-- C7: `is_optional` is true exactly for `OSource` and `ORSource`, and
`is_relative` is true exactly for `RSource` and `ORSource`, checked on all
four `SourceType` variants. -/
theorem claim_C7_source_type_predicates :
    SourceType.is_optional .Source = false ∧ SourceType.is_relative .Source = false ∧
    SourceType.is_optional .RSource = false ∧ SourceType.is_relative .RSource = true ∧
    SourceType.is_optional .OSource = true ∧ SourceType.is_relative .OSource = false ∧
    SourceType.is_optional .ORSource = true ∧ SourceType.is_relative .ORSource = true := by
  decide

/-- C8: parsing the two-line input `source "a"\n\nsource\t"b"\t\n` yields
a `KConfigFile` with exactly two `TopLevel::SourceDirective` blocks in
source order, both of `SourceType::Source`, with `filename_glob` `"a"` and
`"b"` (both borrowed, since neither contains an escape). -/
theorem claim_C8_two_directive_parse :
    parseKConfig ("source \"a\"\n\nsource\t\"b\"\t\n".data) =
      .ok ⟨[.SourceDirective ⟨.Source, .borrowed ['a']⟩,
            .SourceDirective ⟨.Source, .borrowed ['b']⟩]⟩ := by
  decide

/-- C9: every input consisting only of whitespace (the empty input
included) parses successfully to a `KConfigFile` with zero blocks. -/
theorem claim_C9_whitespace_only_empty (l : List Char) (h : ∀ c ∈ l, isWsChar c = true) :
    parseKConfig l = .ok ⟨[]⟩ := by
  have hp : parseDirectives (l.length + 1) 0 l = .ok [] := by
    simp only [parseDirectives]
    rw [skipWs_all_ws l 0 h]
  simp only [parseKConfig, grammarParse, hp]
  simp [KConfigFile.tryFrom, convertBlocks]

/-- Witness for C9 at the whitespace-only input `" \t\n"`. -/
theorem claim_C9_whitespace_only_empty_witness :
    (∀ c ∈ (" \t\n".data), isWsChar c = true) ∧ parseKConfig (" \t\n".data) = .ok ⟨[]⟩ :=
  ⟨by decide, claim_C9_whitespace_only_empty (" \t\n".data) (by decide)⟩

/-- C10: for every quoted string literal whose interior contains a
backslash, `parse_string_literal` never returns a successful value: after
the quotes are stripped, the interior is stripped a second time and the
scan loop has no normal exit, so the decoder either returns a decode error
or diverges (panics). -/
theorem claim_C10_slow_path_never_ok (r : Rule) (sp : Span) (tx : List Char) (i : List Pair)
    (hlen : 2 ≤ tx.length) (hhead : tx.head? = some '"') (hlast : tx.getLast? = some '"')
    (hbs : ((tx.drop 1).dropLast).contains '\\' = true) :
    (∃ e, parse_string_literal (Pair.mk r sp tx i) = .err e) ∨
      parse_string_literal (Pair.mk r sp tx i) = .panic := by
  by_cases hr : r = Rule.string
  · subst hr
    simp only [parse_string_literal]
    rw [if_neg (by simp), if_neg (by omega), if_neg (by simp [hhead]), if_neg (by simp [hlast]),
      if_neg (by rw [hbs]; simp)]
    cases hb : byteStrip ((tx.drop 1).dropLast) with
    | none => right; rfl
    | some inner2 =>
      have hs := (decode_spec sp inner2.length).1 [] inner2 (le_refl _)
      rcases hs with hs | ⟨e, he, _, _⟩
      · right; exact hs
      · left; exact ⟨e, he⟩
  · right
    simp only [parse_string_literal]
    rw [if_pos hr]

/-- Witness for C10 at the literal `"\n"`. -/
theorem claim_C10_slow_path_never_ok_witness :
    (2 ≤ ("\"\\n\"".data).length ∧ ("\"\\n\"".data).head? = some '"' ∧
      ("\"\\n\"".data).getLast? = some '"' ∧
      ((("\"\\n\"".data).drop 1).dropLast).contains '\\' = true) ∧
    ((∃ e, parse_string_literal (Pair.mk Rule.string ⟨0, 4⟩ ("\"\\n\"".data) []) = .err e) ∨
      parse_string_literal (Pair.mk Rule.string ⟨0, 4⟩ ("\"\\n\"".data) []) = .panic) :=
  ⟨⟨by decide, by decide, by decide, by decide⟩,
    claim_C10_slow_path_never_ok Rule.string ⟨0, 4⟩ ("\"\\n\"".data) [] (by decide) (by decide)
      (by decide) (by decide)⟩

end KConf
